import Mathlib

/-!
Verification development for the market-data ingestion core of the
`crypto-trading-agent` repository: the event bus (`src/core/events.py`),
the price collector (`src/data/collectors/price_collector.py`), the data
cleaner (`src/data/processors/cleaner.py`) and the Redis-backed rate
window (`src/data/storage/cache/redis_cache.py`).

Modelling conventions, used throughout:
* Python `Decimal` values that survive cleaning are modelled as `Rat`
  (cleaning produces finite decimal strings, which are exact rationals).
* A Python value that may be `None` is modelled by the inductive `PyVal`
  (`vnone` for `None`, `vnum q` for a numeric value); a dictionary field
  that may be missing is wrapped in an additional `Option`, so
  `none` = key absent and `some PyVal.vnone` = key present with value `None`.
* A Python operation that raises is modelled with `Option`/`Except`; a
  `try/except` that swallows the error is modelled by the corresponding
  `none`/`error` branch of the caller.
-/

/-- A Python value that is either `None` or a number (`Decimal`/`float`). -/
inductive PyVal where
  | vnone
  | vnum (q : Rat)
deriving DecidableEq

/- ------------------------------------------------------------------
DataCleaner (`src/data/processors/cleaner.py`)
------------------------------------------------------------------ -/

/-- Value of a list of decimal digit characters read in base 10
(the integer part of Python `int`/`Decimal` parsing). -/
def digitsVal (l : List Char) : Nat :=
  l.foldl (fun a c => 10 * a + (c.toNat - 48)) 0

/-- `re.sub(r'[^\d.-]', '', value)` of `DataCleaner._clean_decimal`:
keep digits, the decimal point, and the minus sign (at any position). -/
def stripDecimalChars (s : String) : List Char :=
  s.data.filter (fun c => c.isDigit || c == '.' || c == '-')

/-- Python `Decimal(str)` restricted to strings over the alphabet
`{0-9, '.', '-'}` (the only characters `stripDecimalChars` keeps),
without a sign: `digits`, `digits '.' digits`, `'.' digits` or
`digits '.'`, with at least one digit in total; anything else raises
`InvalidOperation`, modelled as `none`. -/
def parseUnsignedDec (l : List Char) : Option Rat :=
  if (l.dropWhile Char.isDigit).isEmpty then
    (if (l.takeWhile Char.isDigit).isEmpty then none
     else some (digitsVal (l.takeWhile Char.isDigit)))
  else if (l.dropWhile Char.isDigit).head? = some '.' then
    (if ((l.dropWhile Char.isDigit).tail.all Char.isDigit
          && (!(l.takeWhile Char.isDigit).isEmpty
              || !(l.dropWhile Char.isDigit).tail.isEmpty))
     then some ((digitsVal (l.takeWhile Char.isDigit) : Rat)
         + (digitsVal ((l.dropWhile Char.isDigit).tail) : Rat)
             / (10 : Rat) ^ ((l.dropWhile Char.isDigit).tail.length))
     else none)
  else none

/-- Python `Decimal(str)` on a stripped string: one optional leading
minus sign, then an unsigned decimal numeral. -/
def parseDecimalChars (l : List Char) : Option Rat :=
  if l.head? = some '-' then (parseUnsignedDec l.tail).map (fun q => -q)
  else parseUnsignedDec l

/-- `DataCleaner._clean_decimal` on a string-or-`None` input (the claims
quantify over string inputs): `None` or `''` gives `None`; otherwise strip
every character that is not a digit, a decimal point or a minus sign;
an empty remainder gives `None`; otherwise parse as `Decimal`, a parse
failure (`InvalidOperation`) being caught and turned into `None`. -/
def clean_decimal (value : Option String) : Option Rat :=
  match value with
  | none => none
  | some s =>
    if s = "" then none
    else
      let cleaned := stripDecimalChars s
      if cleaned.isEmpty then none
      else parseDecimalChars cleaned

/-- Modelled from the spec: the cleaning rule as the specification words it —
strip every character that is not a digit, a decimal point, or a *leading*
minus sign (a minus sign anywhere past position 0 is stripped), then parse
the remainder as a high-precision decimal. -/
def clean_decimal_spec (value : Option String) : Option Rat :=
  match value with
  | none => none
  | some s =>
    if s = "" then none
    else
      let cleaned := (s.data.enum.filterMap
        (fun p => if p.2.isDigit || p.2 == '.' || (p.2 == '-' && p.1 == 0)
                  then some p.2 else none))
      if cleaned.isEmpty then none
      else parseDecimalChars cleaned

/-- `DataCleaner._clean_integer` on a string-or-`None` input: `None` or `''`
gives `None`; otherwise `re.sub(r'[^\d]', '', value)` keeps only digits
(stripping any minus sign) and the remainder, if non-empty, is parsed
with `int`. -/
def clean_integer (value : Option String) : Option Int :=
  match value with
  | none => none
  | some s =>
    if s = "" then none
    else
      let cleaned := s.data.filter Char.isDigit
      if cleaned.isEmpty then none
      else some (digitsVal cleaned : Int)

/-- A cleaned price dictionary as consumed by
`DataCleaner.validate_price_data`: each field is absent (`none`),
present with value `None` (`some .vnone`), or numeric. -/
structure PriceDict where
  price : Option PyVal := none
  open_price : Option PyVal := none
  high_price : Option PyVal := none
  low_price : Option PyVal := none
  close_price : Option PyVal := none
  volume : Option PyVal := none
  volume_24h : Option PyVal := none
  price_change_24h : Option PyVal := none
deriving DecidableEq

/-- The two OHLC comparisons of `validate_price_data`
(`high >= max(open, close) and high >= low`,
`low <= min(open, close) and low <= high`): if every operand is numeric
the conjunction is evaluated, otherwise Python raises `TypeError`
(modelled as `none`), which the enclosing `except` turns into `False`. -/
def ohlcCheck (o h l c : PyVal) : Option Bool :=
  match o, h, l, c with
  | .vnum o, .vnum h, .vnum l, .vnum c =>
    some (decide ((max o c ≤ h ∧ l ≤ h) ∧ (l ≤ min o c ∧ l ≤ h)))
  | _, _, _, _ => none

/-- The volume clause of `validate_price_data`:
`if 'volume' in data and data['volume'] is not None and data['volume'] < 0:
return False`. -/
def volumeOk (d : PriceDict) : Bool :=
  match d.volume with
  | some (.vnum v) => decide (0 ≤ v)
  | _ => true

/-- `DataCleaner.validate_price_data`: `price` must be a present,
non-`None` value that is `> 0`; when all four OHLC keys are present the
ordering comparisons must succeed and hold (a `None` operand raises,
which the function-level `except` converts to `False`); a present,
non-`None` `volume` must be `>= 0`. -/
def validate_price_data (d : PriceDict) : Bool :=
  match d.price with
  | some (.vnum p) =>
    if p ≤ 0 then false
    else
      match d.open_price, d.high_price, d.low_price, d.close_price with
      | some o, some h, some l, some c =>
        match ohlcCheck o h l c with
        | none => false
        | some ok => if ok then volumeOk d else false
      | _, _, _, _ => volumeOk d
  | _ => false

/-- Modelled from the spec: the acceptance condition as the claim words
it — price present, non-absent and positive; if all four OHLC fields are
present then `high ≥ max(open, close)`, `low ≤ min(open, close)` and
`high ≥ low` (comparisons involving an absent value do not hold); volume,
when present and non-absent, is `≥ 0`. -/
def validate_claimed (d : PriceDict) : Bool :=
  (match d.price with
   | some (.vnum p) => decide (0 < p)
   | _ => false)
  && (match d.open_price, d.high_price, d.low_price, d.close_price with
      | some (.vnum o), some (.vnum h), some (.vnum l), some (.vnum c) =>
        decide (max o c ≤ h ∧ l ≤ min o c ∧ l ≤ h)
      | some _, some _, some _, some _ => false
      | _, _, _, _ => true)
  && (match d.volume with
      | some (.vnum v) => decide (0 ≤ v)
      | _ => true)

/- ------------------------------------------------------------------
EventBus (`src/core/events.py`)

`EventBus` keeps a `Dict[str, List[EventHandler]]` of subscriptions and a
FIFO `asyncio.Queue` of published events.  The dictionary is modelled as a
total function `String → List Nat` with default `[]` (handlers are named
by numeric ids); the `if event_type not in self._handlers` key-creation in
`subscribe` and the `in` test in `unsubscribe` only manage key presence,
which is observationally the same as the empty list.  The `start` loop
dequeues one event at a time and `await`s `_process_event` — which
dispatches to every handler registered for the event's type — before
dequeuing the next event, so a run of the loop over a queue is the
sequential traversal `runBus`.  Event `id`/`timestamp` (uuid / wall
clock) are nondeterministic and irrelevant to the claims, so they are
omitted from the model.
------------------------------------------------------------------ -/

/-- Payload carried in `Event.data`: either empty or the five-key payload
built by `PriceCollector.collect_price_data` for a `PriceUpdateEvent`
(`token_address`, `price`, `volume_24h`, `price_change_24h`, `source`).
Python converts `price` and `volume_24h` with `float(...)`; the model
keeps the exact rational value (no claim depends on float rounding). -/
inductive EvData where
  | empty
  | priceUpdate (token_address : String) (price : Rat) (volume_24h : Rat)
      (price_change_24h : PyVal) (source : String)
deriving DecidableEq

/-- An `Event` (`src/core/events.py`): type tag, origin, payload. -/
structure Event where
  event_type : String
  source : String
  data : EvData := EvData.empty
deriving DecidableEq

/-- The subscription mapping of one `EventBus`:
event type ↦ list of handler ids, in registration order. -/
def Handlers : Type := String → List Nat

/-- `EventBus.subscribe`: append the handler to the list for the type
(creating the entry when absent); no uniqueness check. -/
def subscribe (m : Handlers) (ty : String) (h : Nat) : Handlers :=
  fun t => if t = ty then m t ++ [h] else m t

/-- `EventBus.unsubscribe`: `list.remove` deletes the first matching
registration; a `ValueError` (handler absent) is caught and ignored, and
an unknown event type is a no-op, so the net effect is `List.erase`. -/
def unsubscribe (m : Handlers) (ty : String) (h : Nat) : Handlers :=
  fun t => if t = ty then (m t).erase h else m t

/-- `EventBus._process_event` as an invocation trace: every handler
registered for the event's type is invoked with the event. -/
def dispatchEvent (m : Handlers) (ev : Event) : List (Nat × Event) :=
  (m ev.event_type).map (fun h => (h, ev))

/-- The `EventBus.start` loop consuming a queue of published events:
events are dequeued in publish (FIFO) order, and each is fully
dispatched before the next is dequeued. -/
def runBus (m : Handlers) (events : List Event) : List (Nat × Event) :=
  (events.map (dispatchEvent m)).flatten

/-- The subsequence of a dispatch trace observed by handler `h` for
events of type `ty`. -/
def observedBy (tr : List (Nat × Event)) (h : Nat) (ty : String) : List Event :=
  tr.filterMap (fun p => if p.1 = h ∧ p.2.event_type = ty then some p.2 else none)

/-- `EventBus._process_event` with handler results:
`asyncio.gather(*tasks, return_exceptions=True)` runs every handler task
and collects each outcome (normal return or exception) as a value, so it
itself never raises: the result is always `Except.ok` with one entry per
registered handler.  `bhv h ev` is handler `h`'s outcome on `ev`. -/
def process_event (m : Handlers) (bhv : Nat → Event → Except String Unit)
    (ev : Event) : Except String (List (Nat × Except String Unit)) :=
  Except.ok ((m ev.event_type).map (fun h => (h, bhv h ev)))

/-- The `EventBus.start` loop with handler outcomes: the
`except Exception` around `_process_event` logs and continues, so an
error outcome would skip only the current event, never stop the loop. -/
def busLoop (m : Handlers) (bhv : Nat → Event → Except String Unit) :
    List Event → List (Event × List (Nat × Except String Unit))
  | [] => []
  | ev :: evs =>
    match process_event m bhv ev with
    | Except.ok r => (ev, r) :: busLoop m bhv evs
    | Except.error _ => busLoop m bhv evs

/- ------------------------------------------------------------------
PriceCollector (`src/data/collectors/price_collector.py`)
------------------------------------------------------------------ -/

/-- Outcome of `provider.get_token_info(token_address)`:
`raises` = a `DataProviderException` propagates (every failure inside
`get_token_info` is wrapped into one); `noData` = a falsy return
(`None`, or an empty payload); `data d` = a truthy payload. -/
inductive ProviderResult where
  | raises
  | noData
  | data (d : PriceDict)

/-- Construction of the `PriceUpdateEvent` published by
`collect_price_data`: `float(price_data["price"])` and
`float(price_data["volume_24h"])` raise `KeyError`/`TypeError` when the
key is missing or the value is `None` (modelled as `none`), and
`price_data["price_change_24h"]` raises `KeyError` when missing; the
payload also records the provider name under `"source"`. -/
def mkPriceUpdateEvent (token : String) (pname : String) (d : PriceDict) :
    Option Event :=
  match d.price, d.volume_24h, d.price_change_24h with
  | some (.vnum p), some (.vnum v), some pc =>
    some { event_type := "price_update", source := "price_collector",
           data := EvData.priceUpdate token p v pc pname }
  | _, _, _ => none

/-- The inner provider loop of `collect_price_data` for one token,
over the configured `(name, fetch)` providers in priority order.
Returns the recorded result (provider name and payload), the published
events, and the names of the providers actually tried:
* a `DataProviderException` is caught, logged, and the loop continues;
* a falsy payload skips the `if price_data:` body and continues;
* a truthy payload is recorded in `results`, then the event is built and
  published and the loop `break`s — unless building the event raises
  (malformed payload), in which case the exception escapes to the
  per-token `except Exception`, aborting the loop with the result already
  recorded and no event published. -/
def tryProviders (token : String) :
    List (String × (String → ProviderResult)) →
    Option (String × PriceDict) × List Event × List String
  | [] => (none, [], [])
  | (pname, fetch) :: rest =>
    match fetch token with
    | ProviderResult.raises =>
      let r := tryProviders token rest
      (r.1, r.2.1, pname :: r.2.2)
    | ProviderResult.noData =>
      let r := tryProviders token rest
      (r.1, r.2.1, pname :: r.2.2)
    | ProviderResult.data d =>
      match mkPriceUpdateEvent token pname d with
      | some ev => (some (pname, d), [ev], [pname])
      | none => (some (pname, d), [], [pname])

/-- Aggregate outcome of `PriceCollector.collect_price_data`:
the `results` mapping (token, payload, source-provider name — the
`timestamp` entry is wall clock and omitted), the events published on
the bus in publish order, and the (token, provider) fetch attempts. -/
structure CollectOutcome where
  results : List (String × PriceDict × String)
  events : List Event
  tried : List (String × String)
deriving DecidableEq

/-- `PriceCollector.collect_price_data`: process each address in order
with the provider fallback loop; an address for which no provider
yielded a truthy payload is omitted from `results`. -/
def collect_price_data (providers : List (String × (String → ProviderResult))) :
    List String → CollectOutcome
  | [] => ⟨[], [], []⟩
  | t :: ts =>
    let r := tryProviders t providers
    let rest := collect_price_data providers ts
    ⟨(match r.1 with
      | some (pname, d) => [(t, d, pname)]
      | none => []) ++ rest.results,
     r.2.1 ++ rest.events,
     r.2.2.map (fun p => (t, p)) ++ rest.tried⟩

/-- The collector state owned by `PriceCollector`:
the `is_running` flag and the watchlist. -/
structure CollectorState where
  is_running : Bool
  watchlist : List String
deriving DecidableEq

/-- Entry of `PriceCollector.start_collection`: the method sets
`self.is_running = True` unconditionally and then evaluates the
`while self.is_running:` condition; the `Bool` component records whether
the loop body is entered. -/
def start_collection_entry (s : CollectorState) : CollectorState × Bool :=
  let s1 : CollectorState := { s with is_running := true }
  (s1, s1.is_running)

/- ------------------------------------------------------------------
RateWindow (`src/data/storage/cache/redis_cache.py`)

The Redis integer-counter subset used by `incr_rate_limit` /
`get_rate_limit_count` is modelled as an association list from key to
(counter value, absolute expiry time), with an explicit `now : Nat`
clock passed to each operation.  Redis TTL semantics: a key with expiry
`E` is gone at every time `t ≥ E` (lazy expiry); `INCR` on a missing or
expired key creates it at 1 with no TTL; `EXPIRE` sets the TTL of a live
key and does nothing for a missing one.
------------------------------------------------------------------ -/

/-- One Redis counter entry: its value and optional absolute expiry. -/
structure RedisEntry where
  value : Int
  expiry : Option Nat
deriving DecidableEq

/-- The key-value store backing `RedisCache`. -/
def RedisStore : Type := List (String × RedisEntry)

/-- Whether an entry is still live at time `now`. -/
def entryLive (e : RedisEntry) (now : Nat) : Bool :=
  match e.expiry with
  | none => true
  | some t => now < t

/-- Look a key up, treating an expired entry as absent (lazy TTL). -/
def lookupLive (st : RedisStore) (k : String) (now : Nat) : Option RedisEntry :=
  match st.lookup k with
  | some e => if entryLive e now then some e else none
  | none => none

/-- Replace (or insert) the entry for a key. -/
def storeSet (st : RedisStore) (k : String) (e : RedisEntry) : RedisStore :=
  (k, e) :: st.filter (fun p => p.1 ≠ k)

/-- Redis `INCR` (via `RedisCache.incr`): increment a live counter, or
create a fresh one at 1 with no TTL; returns the new value. -/
def redisIncr (st : RedisStore) (k : String) (now : Nat) : Int × RedisStore :=
  match lookupLive st k now with
  | some e => (e.value + 1, storeSet st k { e with value := e.value + 1 })
  | none => (1, storeSet st k { value := 1, expiry := none })

/-- Redis `EXPIRE` (via `RedisCache.expire`): set the expiry of a live
key to `now + ttl`; no effect on a missing/expired key. -/
def redisExpire (st : RedisStore) (k : String) (now ttl : Nat) : RedisStore :=
  match lookupLive st k now with
  | some e => storeSet st k { e with expiry := some (now + ttl) }
  | none => st

/-- The cache key `f"rate_limit:{provider}:{endpoint}"`. -/
def rateLimitKey (provider endpoint : String) : String :=
  "rate_limit:" ++ provider ++ ":" ++ endpoint

/-- `RedisCache.get_rate_limit_count`: `GET` with default 0. -/
def get_rate_limit_count (st : RedisStore) (provider endpoint : String)
    (now : Nat) : Int :=
  ((lookupLive st (rateLimitKey provider endpoint) now).map RedisEntry.value).getD 0

/-- `RedisCache.incr_rate_limit`: `INCR` the counter, and when the
returned count is 1 (the increment created the counter) set its TTL. -/
def incr_rate_limit (st : RedisStore) (provider endpoint : String)
    (ttl now : Nat) : Int × RedisStore :=
  let k := rateLimitKey provider endpoint
  let r := redisIncr st k now
  if r.1 = 1 then (r.1, redisExpire r.2 k now ttl) else r

/-- A sequence of `incr_rate_limit` calls at the given times, in order;
returns the list of returned counts and the final store. -/
def runRateLimitCalls (st : RedisStore) (provider endpoint : String)
    (ttl : Nat) : List Nat → List Int × RedisStore
  | [] => ([], st)
  | t :: ts =>
    let r := incr_rate_limit st provider endpoint ttl t
    let rest := runRateLimitCalls r.2 provider endpoint ttl ts
    (r.1 :: rest.1, rest.2)

/- ------------------------------------------------------------------
General helper lemmas
------------------------------------------------------------------ -/

lemma if_bool_and (b M : Bool) : (if b then M else false) = (b && M) := by
  cases b <;> simp

lemma ohlc_equiv (o h l c : Rat) :
    ((max o c ≤ h ∧ l ≤ h) ∧ (l ≤ min o c ∧ l ≤ h))
      ↔ (max o c ≤ h ∧ l ≤ min o c ∧ l ≤ h) := by
  constructor
  · rintro ⟨⟨h1, h2⟩, h3, _⟩; exact ⟨h1, h3, h2⟩
  · rintro ⟨h1, h3, h2⟩; exact ⟨⟨h1, h2⟩, h3, h2⟩

lemma parseUnsignedDec_dash {l : List Char} (hm : '-' ∈ l) :
    parseUnsignedDec l = none := by
  have hdw : '-' ∈ l.dropWhile Char.isDigit := by
    have hsplit := List.takeWhile_append_dropWhile (p := Char.isDigit) (l := l)
    rcases List.mem_append.mp (hsplit ▸ hm) with hmem | hmem
    · exact absurd (List.mem_takeWhile_imp hmem) (by decide)
    · exact hmem
  have hne : (l.dropWhile Char.isDigit).isEmpty = false := by
    cases hd : l.dropWhile Char.isDigit with
    | nil => rw [hd] at hdw; exact absurd hdw (List.not_mem_nil _)
    | cons a rest => rfl
  rw [parseUnsignedDec, if_neg (by simp [hne])]
  by_cases hh : (l.dropWhile Char.isDigit).head? = some '.'
  · rw [if_pos hh]
    have hrest : '-' ∈ (l.dropWhile Char.isDigit).tail := by
      cases hd : l.dropWhile Char.isDigit with
      | nil => rw [hd] at hdw; exact absurd hdw (List.not_mem_nil _)
      | cons a rest =>
        rw [hd] at hdw hh
        simp only [List.head?_cons, Option.some.injEq] at hh
        rcases List.mem_cons.mp hdw with hcase | hcase
        · exact absurd (hcase.trans hh) (by decide)
        · simpa [hd] using hcase
    have hall : (l.dropWhile Char.isDigit).tail.all Char.isDigit = false := by
      cases hb : (l.dropWhile Char.isDigit).tail.all Char.isDigit
      · rfl
      · exact absurd (List.all_eq_true.mp hb _ hrest) (by decide)
    rw [if_neg (by simp [hall])]
  · rw [if_neg hh]

lemma parseDecimalChars_dash {l : List Char} (hm : '-' ∈ l.tail) :
    parseDecimalChars l = none := by
  rw [parseDecimalChars]
  by_cases hh : l.head? = some '-'
  · rw [if_pos hh, parseUnsignedDec_dash hm]; rfl
  · rw [if_neg hh]
    exact parseUnsignedDec_dash (List.mem_of_mem_tail hm)

/- ------------------------------------------------------------------
Claim theorems: DataCleaner
------------------------------------------------------------------ -/

/-- Claim C7: `DataCleaner.validate_price_data` accepts a cleaned record
if and only if the price field is present, non-absent and positive; when
all four OHLC fields are present, `high ≥ max(open, close)`,
`low ≤ min(open, close)` and `high ≥ low` all hold (an absent OHLC value
satisfies no comparison); and volume, when present and non-absent, is
non-negative.  In particular a full-OHLC record with
`high_price < low_price` and a record with `price = 0` are both
rejected. -/
theorem validate_price_data_iff_claimed :
    (∀ d : PriceDict, validate_price_data d = validate_claimed d)
    ∧ validate_price_data
        { price := some (.vnum 1), open_price := some (.vnum 1),
          high_price := some (.vnum 1), low_price := some (.vnum 2),
          close_price := some (.vnum 1) } = false
    ∧ validate_price_data { price := some (.vnum 0) } = false := by
  refine ⟨?_, by decide, by decide⟩
  intro d
  obtain ⟨pr, o, h, l, c, vol, v24, pc⟩ := d
  rcases pr with _ | pv
  · rfl
  rcases pv with _ | p
  · rfl
  by_cases hp : p ≤ 0
  · simp [validate_price_data, validate_claimed, hp, not_lt.mpr hp]
  have hp2 : 0 < p := not_le.mp hp
  rcases o with _ | ov <;> rcases h with _ | hv <;>
    rcases l with _ | lv <;> rcases c with _ | cv <;>
    first
      | (simp [validate_price_data, validate_claimed, volumeOk, hp, hp2]; done)
      | skip
  all_goals
    rcases ov with _ | oq <;> rcases hv with _ | hq <;>
      rcases lv with _ | lq <;> rcases cv with _ | cq <;>
      first
        | (simp [validate_price_data, validate_claimed, volumeOk, ohlcCheck,
                 hp, hp2]; done)
        | (by_cases h1 : oq ≤ hq <;> by_cases h2 : cq ≤ hq <;>
           by_cases h3 : lq ≤ oq <;> by_cases h4 : lq ≤ cq <;>
           by_cases h5 : lq ≤ hq <;>
           simp [validate_price_data, validate_claimed, volumeOk, ohlcCheck,
                 if_bool_and, hp, hp2, h1, h2, h3, h4, h5, max_le_iff,
                 le_min_iff])

/-- Claim C8, counterexample: on the input `"1-2"` the cleaning rule as
claimed (strip everything that is not a digit, a decimal point or a
*leading* minus sign, then parse) yields `12`, but
`DataCleaner._clean_decimal` keeps the interior minus sign — the regex
`[^\d.-]` retains every minus — producing the unparseable `"1-2"` and
hence `None`.  The two functions therefore differ, refuting the claim. -/
theorem clean_decimal_spec_diverges :
    clean_decimal_spec (some "1-2") = some 12
    ∧ clean_decimal (some "1-2") = none := by
  constructor <;> decide

/-- Claim C8 (amended): `_clean_decimal` strips every character that is
not a digit, a decimal point, or a minus sign — retaining minus signs at
*any* position, not only a leading one — and parses the remainder as a
high-precision decimal; `"$1,234.56"` yields exactly `1234.56`; the
empty input yields `None`; and a remainder with a minus sign past the
leading position is unparseable and yields `None` (never zero). -/
theorem clean_decimal_amended :
    clean_decimal (some "$1,234.56") = some (123456 / 100 : Rat)
    ∧ clean_decimal (some "") = none
    ∧ (∀ s : String, '-' ∈ (stripDecimalChars s).tail →
        clean_decimal (some s) = none) := by
  refine ⟨?_, by decide, ?_⟩
  · have hval : clean_decimal (some "$1,234.56")
        = some (((1234 : Nat) : Rat) + ((56 : Nat) : Rat) / (10 : Rat) ^ (2 : Nat)) := by
      rfl
    rw [hval]; norm_num
  intro s hm
  rw [clean_decimal]
  by_cases hs : s = ""
  · rw [if_pos hs]
  · rw [if_neg hs]
    by_cases hc : (stripDecimalChars s).isEmpty
    · simp [hc]
    · simp [hc, parseDecimalChars_dash hm]

/-- Witness for the amended claim C8 at the concrete input `"5-7"`. -/
theorem clean_decimal_amended_witness :
    ('-' ∈ (stripDecimalChars "5-7").tail)
    ∧ clean_decimal (some "5-7") = none :=
  ⟨by decide, clean_decimal_amended.2.2 "5-7" (by decide)⟩

/-- Claim C10: for every string input `DataCleaner._clean_integer`
returns either `None` or a non-negative integer — every non-digit
character, the minus sign included, is stripped before parsing — so
`"-5"` yields `5`, never a negative integer. -/
theorem clean_integer_nonneg :
    (∀ s : String, clean_integer (some s) = none
      ∨ ∃ n : Int, clean_integer (some s) = some n ∧ 0 ≤ n)
    ∧ clean_integer (some "-5") = some 5 := by
  refine ⟨?_, by decide⟩
  intro s
  rw [clean_integer]
  by_cases hs : s = ""
  · left; rw [if_pos hs]
  · rw [if_neg hs]
    by_cases hc : (s.data.filter Char.isDigit).isEmpty
    · left; simp [hc]
    · right
      refine ⟨(digitsVal (s.data.filter Char.isDigit) : Int), by simp [hc], ?_⟩
      exact Int.ofNat_nonneg _

/- ------------------------------------------------------------------
Claim theorems: EventBus
------------------------------------------------------------------ -/

lemma observedBy_append (a b : List (Nat × Event)) (h : Nat) (ty : String) :
    observedBy (a ++ b) h ty = observedBy a h ty ++ observedBy b h ty := by
  simp [observedBy]

lemma observedBy_pairs (l : List Nat) (ev : Event) (h : Nat) (ty : String) :
    observedBy (l.map (fun x => (x, ev))) h ty
      = if ev.event_type = ty then List.replicate (l.count h) ev else [] := by
  induction l with
  | nil => by_cases hty : ev.event_type = ty <;> simp [observedBy, hty]
  | cons a as ih =>
    by_cases hty : ev.event_type = ty <;> by_cases hah : a = h <;>
      simp [observedBy, List.filterMap_cons, hty, hah, List.count_cons,
            List.replicate_succ] <;>
      simpa [observedBy, hty] using ih

/-- Claim C1: events published on one bus are dispatched in global FIFO
order — the `start` loop dequeues one event at a time and fully
dispatches it before dequeuing the next — so a handler subscribed
(once) to an event type observes exactly the published events of that
type, in publish order. -/
theorem eventbus_fifo_per_handler (m : Handlers) (events : List Event)
    (ty : String) (h : Nat) (hone : (m ty).count h = 1) :
    observedBy (runBus m events) h ty
      = events.filter (fun e => decide (e.event_type = ty)) := by
  induction events with
  | nil => rfl
  | cons ev evs ih =>
    have hsplit : runBus m (ev :: evs) = dispatchEvent m ev ++ runBus m evs := by
      simp [runBus]
    rw [hsplit, observedBy_append, dispatchEvent, observedBy_pairs]
    by_cases hty : ev.event_type = ty
    · rw [if_pos hty, hty, hone]
      simp [ih, List.filter_cons, hty]
    · rw [if_neg hty]
      simp [ih, List.filter_cons, hty]

/-- Sample bus subscription map for the FIFO witness:
one handler (id 0) subscribed to `price_update`. -/
def mFifo : Handlers := fun ty => if ty = "price_update" then [0] else []

/-- Sample events for the FIFO witness. -/
def evP1 : Event := { event_type := "price_update", source := "a" }

def evOther : Event := { event_type := "order_created", source := "b" }

def evP2 : Event := { event_type := "price_update", source := "c" }

/-- Witness for claim C1 on a concrete bus and queue. -/
theorem eventbus_fifo_per_handler_witness :
    (mFifo "price_update").count 0 = 1
    ∧ observedBy (runBus mFifo [evP1, evOther, evP2]) 0 "price_update"
        = [evP1, evP2] :=
  ⟨by decide,
   (eventbus_fifo_per_handler mFifo [evP1, evOther, evP2] "price_update" 0
      (by decide)).trans (by decide)⟩

/-- Claim C4: a handler that raises during dispatch affects nothing but
its own result — `asyncio.gather(..., return_exceptions=True)` converts
handler exceptions into values — so for *every* assignment `bhv` of
handler outcomes (raising or not) the loop processes every queued event
and invokes every registered handler of each event: the trace equals the
full event-by-handler map, independently of which handlers fail. -/
theorem handler_failure_isolated (m : Handlers)
    (bhv : Nat → Event → Except String Unit) (events : List Event) :
    busLoop m bhv events
      = events.map (fun ev =>
          (ev, (m ev.event_type).map (fun h => (h, bhv h ev)))) := by
  induction events with
  | nil => rfl
  | cons ev evs ih => simp [busLoop, process_event, ih]

/-- Claim C5: removing a handler's only registration for an event type
means a subsequently dispatched event of that type never invokes it; and
`unsubscribe` for an unregistered handler (or unknown event type) is a
no-op that leaves the subscription mapping unchanged. -/
theorem unsubscribe_removes_handler (m : Handlers) (ty : String) (h : Nat)
    (ev : Event) (hty : ev.event_type = ty) :
    ((m ty).count h = 1 →
      h ∉ (dispatchEvent (unsubscribe m ty h) ev).map Prod.fst)
    ∧ (h ∉ m ty → unsubscribe m ty h = m) := by
  constructor
  · intro hone hmem
    simp only [dispatchEvent, unsubscribe, hty, if_pos rfl, List.map_map] at hmem
    have h0 : ((m ty).erase h).count h = 0 := by
      rw [List.count_erase_self, hone]
    exact (List.count_eq_zero.mp h0) (by simpa using hmem)
  · intro hnot
    funext t
    by_cases htt : t = ty
    · subst htt
      simp [unsubscribe, List.erase_of_not_mem hnot]
    · simp [unsubscribe, htt]

/-- Sample subscription map for the unsubscribe witness:
handler 3 subscribed to `price_update` once. -/
def mSub : Handlers := fun ty => if ty = "price_update" then [3] else []

/-- Sample event for the unsubscribe witness. -/
def evSub : Event := { event_type := "price_update", source := "s" }

/-- Witness for claim C5: after removing handler 3 it is not invoked,
and removing the unregistered handler 9 leaves the mapping unchanged. -/
theorem unsubscribe_removes_handler_witness :
    (3 ∉ (dispatchEvent (unsubscribe mSub "price_update" 3) evSub).map Prod.fst)
    ∧ unsubscribe mSub "price_update" 9 = mSub :=
  ⟨(unsubscribe_removes_handler mSub "price_update" 3 evSub rfl).1 (by decide),
   (unsubscribe_removes_handler mSub "price_update" 9 evSub rfl).2 (by decide)⟩

/- ------------------------------------------------------------------
Claim theorems: PriceCollector
------------------------------------------------------------------ -/

lemma tryProviders_cons_fail (token : String) (pname : String)
    (fetch : String → ProviderResult)
    (ps : List (String × (String → ProviderResult)))
    (hfail : fetch token = ProviderResult.raises
      ∨ fetch token = ProviderResult.noData) :
    tryProviders token ((pname, fetch) :: ps)
      = ((tryProviders token ps).1, (tryProviders token ps).2.1,
         pname :: (tryProviders token ps).2.2) := by
  rcases hfail with hf | hf <;> simp [tryProviders, hf]

lemma tryProviders_append_fail (token : String)
    (before ps : List (String × (String → ProviderResult)))
    (hfail : ∀ q ∈ before, q.2 token = ProviderResult.raises
      ∨ q.2 token = ProviderResult.noData) :
    tryProviders token (before ++ ps)
      = ((tryProviders token ps).1, (tryProviders token ps).2.1,
         before.map Prod.fst ++ (tryProviders token ps).2.2) := by
  induction before with
  | nil => simp
  | cons q qs ih =>
    obtain ⟨qn, qf⟩ := q
    rw [List.cons_append,
        tryProviders_cons_fail token qn qf (qs ++ ps)
          (hfail (qn, qf) (List.mem_cons_self _ _)),
        ih (fun r hr => hfail r (List.mem_cons_of_mem _ hr))]
    simp

lemma tryProviders_cons_success (token : String) (pname : String)
    (fetch : String → ProviderResult)
    (ps : List (String × (String → ProviderResult)))
    (d : PriceDict) (p v : Rat) (pc : PyVal)
    (hfetch : fetch token = ProviderResult.data d)
    (hp : d.price = some (PyVal.vnum p))
    (hv : d.volume_24h = some (PyVal.vnum v))
    (hpc : d.price_change_24h = some pc) :
    tryProviders token ((pname, fetch) :: ps)
      = (some (pname, d),
         [{ event_type := "price_update", source := "price_collector",
            data := EvData.priceUpdate token p v pc pname }],
         [pname]) := by
  simp [tryProviders, hfetch, mkPriceUpdateEvent, hp, hv, hpc]

/-- Claim C3: for one token address and a priority-ordered provider list,
if every provider before `P` fails (raises a `DataProviderException` or
returns no data) and `P` returns a well-formed payload, then
`collect_price_data` publishes exactly one `PriceUpdate` event for that
address, whose payload names `P` as the source, records exactly one
result sourced from `P`, and tries no provider after `P`. -/
theorem provider_fallback_single_event
    (before : List (String × (String → ProviderResult)))
    (pname : String) (fetch : String → ProviderResult)
    (rest : List (String × (String → ProviderResult)))
    (addr : String) (d : PriceDict) (p v : Rat) (pc : PyVal)
    (hfail : ∀ q ∈ before, q.2 addr = ProviderResult.raises
      ∨ q.2 addr = ProviderResult.noData)
    (hfetch : fetch addr = ProviderResult.data d)
    (hp : d.price = some (PyVal.vnum p))
    (hv : d.volume_24h = some (PyVal.vnum v))
    (hpc : d.price_change_24h = some pc) :
    (collect_price_data (before ++ (pname, fetch) :: rest) [addr]).events
      = [{ event_type := "price_update", source := "price_collector",
           data := EvData.priceUpdate addr p v pc pname }]
    ∧ (collect_price_data (before ++ (pname, fetch) :: rest) [addr]).tried
      = before.map (fun q => (addr, q.1)) ++ [(addr, pname)]
    ∧ (collect_price_data (before ++ (pname, fetch) :: rest) [addr]).results
      = [(addr, d, pname)] := by
  have hstep := tryProviders_append_fail addr before ((pname, fetch) :: rest) hfail
  rw [tryProviders_cons_success addr pname fetch rest d p v pc hfetch hp hv hpc]
    at hstep
  refine ⟨?_, ?_, ?_⟩ <;>
    simp [collect_price_data, hstep, List.map_map, Function.comp]

/-- Concrete payload whose `price` is well-formed: used by the C3
witness. -/
def dGood : PriceDict :=
  { price := some (PyVal.vnum 2), volume_24h := some (PyVal.vnum 3),
    price_change_24h := some (PyVal.vnum (1 / 2)) }

/-- Witness for claim C3: the first provider raises, the second
succeeds, a third is configured but never tried. -/
theorem provider_fallback_single_event_witness :
    (∀ q ∈ [("coingecko", fun _ : String => ProviderResult.raises)],
      q.2 "0xaa" = ProviderResult.raises ∨ q.2 "0xaa" = ProviderResult.noData)
    ∧ (collect_price_data
        ([("coingecko", fun _ => ProviderResult.raises)]
          ++ ("dexscreener", fun _ => ProviderResult.data dGood)
            :: [("extra", fun _ => ProviderResult.noData)]) ["0xaa"]).events
      = [{ event_type := "price_update", source := "price_collector",
           data := EvData.priceUpdate "0xaa" 2 3 (PyVal.vnum (1 / 2))
             "dexscreener" }] :=
  ⟨fun q hq => by simp at hq; simp [hq],
   (provider_fallback_single_event
      [("coingecko", fun _ => ProviderResult.raises)]
      "dexscreener" (fun _ => ProviderResult.data dGood)
      [("extra", fun _ => ProviderResult.noData)]
      "0xaa" dGood 2 3 (PyVal.vnum (1 / 2))
      (fun q hq => by simp at hq; simp [hq]) rfl rfl rfl rfl).1⟩

/-- Payload that fails `DataNormalizer` validation (`price = 0`) yet is
truthy and structurally publishable: used for claim C2. -/
def dInvalid : PriceDict :=
  { price := some (PyVal.vnum 0), volume_24h := some (PyVal.vnum 5),
    price_change_24h := some (PyVal.vnum 1) }

/-- Claim C2, counterexample: `collect_price_data` never invokes
`DataCleaner.validate_price_data` — a payload with `price = 0`, which
fails validation, is nevertheless recorded as a result and published as
a `PriceUpdate` event, refuting the claim that only validated records
are published. -/
theorem publish_without_validation_cex :
    validate_price_data dInvalid = false
    ∧ (collect_price_data
        [("dexscreener", fun _ => ProviderResult.data dInvalid)]
        ["0xaa"]).events.length = 1
    ∧ (collect_price_data
        [("dexscreener", fun _ => ProviderResult.data dInvalid)]
        ["0xaa"]).results = [("0xaa", dInvalid, "dexscreener")] := by
  refine ⟨by decide, by decide, by decide⟩

/-- Claim C2 (amended): `collect_price_data` applies no
`DataNormalizer` validation.  For every address whose provider returns a
truthy payload with `price` and `volume_24h` present and numeric and
`price_change_24h` present, a `PriceUpdate` event is published and a
result recorded — whether or not the payload passes
`validate_price_data`; a payload failing validation is published all the
same. -/
theorem collect_publishes_unvalidated
    (pname : String) (fetch : String → ProviderResult) (addr : String)
    (d : PriceDict) (p v : Rat) (pc : PyVal)
    (hfetch : fetch addr = ProviderResult.data d)
    (hp : d.price = some (PyVal.vnum p))
    (hv : d.volume_24h = some (PyVal.vnum v))
    (hpc : d.price_change_24h = some pc) :
    (collect_price_data [(pname, fetch)] [addr]).events
      = [{ event_type := "price_update", source := "price_collector",
           data := EvData.priceUpdate addr p v pc pname }]
    ∧ (collect_price_data [(pname, fetch)] [addr]).results
      = [(addr, d, pname)] := by
  have hstep := tryProviders_cons_success addr pname fetch [] d p v pc
    hfetch hp hv hpc
  constructor <;> simp [collect_price_data, hstep]

/-- Witness for the amended claim C2: the invalid payload `dInvalid`
(price 0, rejected by validation) is published. -/
theorem collect_publishes_unvalidated_witness :
    ((fun _ : String => ProviderResult.data dInvalid) "0xaa"
        = ProviderResult.data dInvalid)
    ∧ (collect_price_data
        [("dexscreener", fun _ => ProviderResult.data dInvalid)]
        ["0xaa"]).events
      = [{ event_type := "price_update", source := "price_collector",
           data := EvData.priceUpdate "0xaa" 0 5 (PyVal.vnum 1)
             "dexscreener" }] :=
  ⟨rfl,
   (collect_publishes_unvalidated "dexscreener"
      (fun _ => ProviderResult.data dInvalid) "0xaa" dInvalid 0 5
      (PyVal.vnum 1) rfl rfl rfl rfl).1⟩

/-- Claim C9, counterexample: `start_collection` contains no
already-running guard — called with `is_running = true` it still enters
the collection loop, so the call is not a no-op in the claimed sense
(\"no additional collection loop is started\"). -/
theorem start_collection_guard_missing :
    ¬ ((start_collection_entry
        { is_running := true, watchlist := [] }).2 = false) := by
  decide

/-- Claim C9 (amended): calling `start_collection` while already Running
leaves the observable collector state unchanged — `is_running` is simply
assigned `True` again and the watchlist is untouched — but the method is
unguarded and unconditionally enters another collection loop. -/
theorem start_collection_always_enters (s : CollectorState) :
    start_collection_entry s
      = ({ is_running := true, watchlist := s.watchlist }, true) := by
  cases s
  rfl

/- ------------------------------------------------------------------
Claim theorems: RateWindow
------------------------------------------------------------------ -/

lemma storeSet_lookup (st : RedisStore) (k : String) (e : RedisEntry) :
    (storeSet st k e).lookup k = some e := by
  simp [storeSet, List.lookup]

lemma lookupLive_storeSet (st : RedisStore) (k : String) (e : RedisEntry)
    (now : Nat) :
    lookupLive (storeSet st k e) k now
      = if entryLive e now then some e else none := by
  simp [lookupLive, storeSet_lookup]

lemma runRateLimitCalls_live (provider endpoint : String) (ttl : Nat)
    (ts : List Nat) (j : Int) (E : Nat) (st : RedisStore)
    (hj : 1 ≤ j)
    (hst : st.lookup (rateLimitKey provider endpoint)
      = some { value := j, expiry := some E })
    (hts : ∀ t ∈ ts, t < E) :
    (runRateLimitCalls st provider endpoint ttl ts).1
      = (List.range ts.length).map (fun i : Nat => j + (i : Int) + 1)
    ∧ (runRateLimitCalls st provider endpoint ttl ts).2.lookup
        (rateLimitKey provider endpoint)
      = some { value := j + ts.length, expiry := some E } := by
  induction ts generalizing j st with
  | nil => simpa [runRateLimitCalls] using hst
  | cons t ts ih =>
    have hlive : lookupLive st (rateLimitKey provider endpoint) t
        = some { value := j, expiry := some E } := by
      simp [lookupLive, hst, entryLive, hts t (List.mem_cons_self _ _)]
    have hne1 : ¬ (j + 1 = 1) := by omega
    have hstep : incr_rate_limit st provider endpoint ttl t
        = (j + 1, storeSet st (rateLimitKey provider endpoint)
            { value := j + 1, expiry := some E }) := by
      simp [incr_rate_limit, redisIncr, hlive, hne1]
    obtain ⟨ih1, ih2⟩ := ih (j + 1)
      (storeSet st (rateLimitKey provider endpoint)
        { value := j + 1, expiry := some E })
      (by omega) (storeSet_lookup _ _ _)
      (fun r hr => hts r (List.mem_cons_of_mem _ hr))
    constructor
    · rw [runRateLimitCalls, hstep]
      simp only [ih1, List.length_cons, List.range_succ_eq_map,
                 List.map_cons, List.map_map]
      congr 1
      · push_cast
        ring
      · refine List.map_congr_left (fun i _ => ?_)
        simp only [Function.comp]
        push_cast
        ring
    · rw [runRateLimitCalls, hstep]
      simp only [List.length_cons]
      rw [show (runRateLimitCalls
          (storeSet st (rateLimitKey provider endpoint)
            { value := j + 1, expiry := some E })
          provider endpoint ttl ts).2.lookup (rateLimitKey provider endpoint)
        = some { value := j + 1 + ts.length, expiry := some E } from ih2]
      congr 2
      push_cast
      ring

/-- Claim C6: for a fresh (scope, key) the k-th `incr_rate_limit` call
returns exactly k; only the first call (the one returning 1) sets the
window expiry, namely to `window_seconds` past that call's moment; and
once the window has expired `get_rate_limit_count` returns 0 again. -/
theorem rate_window_counts (st : RedisStore) (provider endpoint : String)
    (ttl : Nat) (t0 : Nat) (ts : List Nat)
    (hfresh : st.lookup (rateLimitKey provider endpoint) = none)
    (hts : ∀ t ∈ ts, t < t0 + ttl) :
    (runRateLimitCalls st provider endpoint ttl (t0 :: ts)).1
      = (List.range (ts.length + 1)).map (fun i : Nat => (i : Int) + 1)
    ∧ (runRateLimitCalls st provider endpoint ttl (t0 :: ts)).2.lookup
        (rateLimitKey provider endpoint)
      = some { value := 1 + (ts.length : Int), expiry := some (t0 + ttl) }
    ∧ (∀ t, t0 + ttl ≤ t →
        get_rate_limit_count
          (runRateLimitCalls st provider endpoint ttl (t0 :: ts)).2
          provider endpoint t = 0) := by
  have hlive0 : lookupLive st (rateLimitKey provider endpoint) t0 = none := by
    simp [lookupLive, hfresh]
  have hstep0 : incr_rate_limit st provider endpoint ttl t0
      = (1, storeSet
          (storeSet st (rateLimitKey provider endpoint)
            { value := 1, expiry := none })
          (rateLimitKey provider endpoint)
          { value := 1, expiry := some (t0 + ttl) }) := by
    simp [incr_rate_limit, redisIncr, hlive0, redisExpire,
          lookupLive_storeSet, entryLive]
  obtain ⟨h1, h2⟩ := runRateLimitCalls_live provider endpoint ttl ts 1
    (t0 + ttl)
    (storeSet
      (storeSet st (rateLimitKey provider endpoint)
        { value := 1, expiry := none })
      (rateLimitKey provider endpoint)
      { value := 1, expiry := some (t0 + ttl) })
    le_rfl (storeSet_lookup _ _ _) hts
  have hfinal : (runRateLimitCalls st provider endpoint ttl (t0 :: ts)).2.lookup
      (rateLimitKey provider endpoint)
      = some { value := 1 + (ts.length : Int), expiry := some (t0 + ttl) } := by
    rw [runRateLimitCalls, hstep0]
    simpa using h2
  refine ⟨?_, hfinal, ?_⟩
  · rw [runRateLimitCalls, hstep0]
    simp only [h1, List.range_succ_eq_map, List.map_cons, List.map_map]
    congr 1
    all_goals
      try
        refine List.map_congr_left (fun i _ => ?_)
        simp only [Function.comp]
    all_goals
      push_cast
      ring
  · intro t ht
    simp [get_rate_limit_count, lookupLive, hfinal, entryLive, not_lt.mpr ht]

/-- Witness for claim C6: three calls at times 0, 10, 20 on a fresh
store with a 60-second window return 1, 2, 3, and at any time from 60
on the count reads 0. -/
theorem rate_window_counts_witness :
    (([] : RedisStore).lookup (rateLimitKey "dexscreener" "tokens") = none)
    ∧ (∀ t ∈ [10, 20], t < 0 + 60)
    ∧ (runRateLimitCalls [] "dexscreener" "tokens" 60 [0, 10, 20]).1
        = [1, 2, 3]
    ∧ get_rate_limit_count
        (runRateLimitCalls [] "dexscreener" "tokens" 60 [0, 10, 20]).2
        "dexscreener" "tokens" 60 = 0 :=
  ⟨by decide, by decide,
   (rate_window_counts [] "dexscreener" "tokens" 60 0 [10, 20]
      (by decide) (by decide)).1.trans (by decide),
   (rate_window_counts [] "dexscreener" "tokens" 60 0 [10, 20]
      (by decide) (by decide)).2.2 60 (by decide)⟩
